import Mathlib

/-!
Verification of the pipewire-autolink matching-and-deduplication engine
(`src/main.rs`), as a shallow embedding of its single-threaded event
dispatcher `on_event` together with the surrounding listener glue.

Modelling conventions:
* `HashMap` fields become function maps `α → Option β` with pointwise
  insert (`upd`) and remove (`del`); `HashSet<u32>` becomes `Nat → Bool`.
* The two external side-effecting calls are reified as `Output` values:
  `core.create_object::<Link>` (via `create_link`) becomes
  `Output.connect`, and `registry.destroy_global` becomes `Output.destroy`.
* `create_link` uses `.expect("Failed to create object")` in the source:
  a synchronous factory failure panics the process.  The embedding threads
  a `factory_ok : Bool` flag for the availability of the external factory
  and returns `Except String _`, where `.error` marks the panic (the event
  loop is gone; no further event is processed).
* The `.unwrap()` on `relevant_nodes.get(other_node)` is likewise an
  `.error` (panic) when the name index points at an id that is not in
  `relevant_nodes`.
* The `link.add_listener_local().info(...)` callback, which runs later on
  the same single-threaded loop and inserts the confirmed link id into
  `created_links` while dropping the proxy from `temp_links`, is modelled
  as a separate dispatcher event `Event.confirm localId serverId`.
* The pipewire client library assigns the local proxy id
  (`link.upcast_ref().id()`); the embedding models that external allocator
  as the fresh counter `next_handle`.  Its value feeds only `temp_links`
  bookkeeping, never a routing decision.
-/

namespace PwAutolink

/-- Pointwise insert, modelling `HashMap::insert`. -/
def upd {α β : Type} [DecidableEq α] (m : α → Option β) (k : α) (v : β) : α → Option β :=
  fun k' => if k' = k then some v else m k'

/-- Pointwise remove, modelling `HashMap::remove` (the mapping part). -/
def del {α β : Type} [DecidableEq α] (m : α → Option β) (k : α) : α → Option β :=
  fun k' => if k' = k then none else m k'

/-- Pointwise insert, modelling `HashSet::insert`. -/
def setInsert (s : Nat → Bool) (k : Nat) : Nat → Bool :=
  fun k' => if k' = k then true else s k'

/-- Pointwise remove, modelling `HashSet::remove`. -/
def setRemove (s : Nat → Bool) (k : Nat) : Nat → Bool :=
  fun k' => if k' = k then false else s k'

/-- Port direction, from `enum Direction { IN, OUT }`. -/
inductive Direction where
  | IN
  | OUT
deriving DecidableEq

/-- From `struct Port { id, node, channel, direction }`. -/
structure Port where
  id : Nat
  node : Nat
  channel : String
  direction : Direction
deriving DecidableEq

/-- From `struct Link { port_in, port_out, node_in, node_out }`. -/
structure Link where
  port_in : Nat
  port_out : Nat
  node_in : Nat
  node_out : Nat
deriving DecidableEq

/-- From `struct NodeData { name, id, ports }`. -/
structure NodeData where
  name : String
  id : Nat
  ports : List Port
deriving DecidableEq

/-- From `struct ConfigCache`: `connect` maps either endpoint name of a
`--connect output,input` pair to the pair, `delete_in` / `delete_out` map a
flagged name to itself, and `all` is the union of all configured names. -/
structure ConfigCache where
  connect : String → Option (String × String)
  delete_in : String → Option String
  delete_out : String → Option String
  all : String → Bool

/-- From `enum Type { Node(String), Link(Link), Port(Port) }` (renamed:
`Type` is not available in Lean). -/
inductive Ty where
  | node (name : String)
  | port (p : Port)
  | link (l : Link)
deriving DecidableEq

/-- Dispatcher events.  `create id thing` is `Event::Create(global, obj)`:
in `listener_thread` the object is always built with `obj.id = global.id`,
so a single id field suffices.  `delete id` is `Event::Delete(id)` from
`global_remove`.  `confirm localId serverId` is the link proxy's `info`
callback (registered in `on_event`), which runs later on the same
single-threaded main loop: it inserts `info.id()` (the server-assigned id)
into `created_links` and retains away the `temp_links` entry whose local
proxy id equals `localId`. -/
inductive Event where
  | create (id : Nat) (thing : Ty)
  | delete (id : Nat)
  | confirm (localId serverId : Nat)
deriving DecidableEq

/-- The two outbound calls on the collaborator, reified.
`connect output_port input_port output_node input_node` records the
property set passed to the `link-factory` (`link.output.port`,
`link.input.port`, `link.output.node`, `link.input.node`);
`destroy id` records `registry.destroy_global(id)`. -/
inductive Output where
  | connect (output_port input_port output_node input_node : Nat)
  | destroy (id : Nat)
deriving DecidableEq

/-- From `struct State`.  `temp_links` keeps only the local proxy ids of
the pending `(Link, LinkListener)` pairs (the proxy objects themselves are
foreign handles); `next_handle` models the client library's proxy-id
allocator. -/
structure State where
  relevant_nodes : Nat → Option NodeData
  node_by_name : String → Option Nat
  created_links : Nat → Bool
  temp_links : List Nat
  next_handle : Nat

/-- `State::default()`. -/
def init : State :=
  { relevant_nodes := fun _ => none
    node_by_name := fun _ => none
    created_links := fun _ => false
    temp_links := []
    next_handle := 0 }

/-- From `fn create_link(core, pin, pout)`: asks the `link-factory` for a
link with `pout` as output side and `pin` as input side.  The source calls
`.expect("Failed to create object")`, so a synchronous failure of the
factory is a panic, modelled as `.error`. -/
def create_link (factory_ok : Bool) (pin pout : Port) : Except String Output :=
  if factory_ok then
    .ok (.connect pout.id pin.id pout.node pin.node)
  else
    .error "Failed to create object"

/-- The deferred `state.relevant_nodes.get_mut(&port.node).unwrap().ports.push(port)`
performed at the end of the port branch when `push` was set. -/
def pushPort (s : State) (p : Port) : State :=
  match s.relevant_nodes p.node with
  | some nd =>
    { s with relevant_nodes := upd s.relevant_nodes p.node { nd with ports := nd.ports ++ [p] } }
  | none => s

/-- The predicate of the partner-port scan:
`.find(|p| p.channel == port.channel && p.direction != port.direction)`. -/
def portMatches (port q : Port) : Bool :=
  decide (q.channel = port.channel) && decide (q.direction ≠ port.direction)

/-- From `fn on_event`: the single dispatcher through which every
notification funnels.  Returns the successor state together with the list
of outbound calls issued while handling the event, or `.error` when the
handler panics (which kills the single-threaded process). -/
def on_event (cfg : ConfigCache) (factory_ok : Bool) (s : State) (e : Event) :
    Except String (State × List Output) :=
  match e with
  | .create id thing =>
    match thing with
    | .node name =>
      if cfg.all name = true then
        .ok ({ s with
                relevant_nodes := upd s.relevant_nodes id { name := name, id := id, ports := [] }
                node_by_name := upd s.node_by_name name id }, [])
      else
        .ok (s, [])
    | .port port =>
      match s.relevant_nodes port.node with
      | none => .ok (s, [])
      | some parent =>
        match cfg.connect parent.name with
        | none => .ok (pushPort s port, [])
        | some (output_name, input_name) =>
          if port.direction = .IN ∧ parent.name ≠ input_name then
            .ok (s, [])
          else if port.direction = .OUT ∧ parent.name ≠ output_name then
            .ok (s, [])
          else
            match s.node_by_name (if port.direction = .IN then output_name else input_name) with
            | none => .ok (pushPort s port, [])
            | some other_node =>
              match s.relevant_nodes other_node with
              | none => .error "called Option::unwrap on a None value"
              | some other_data =>
                match other_data.ports.find? (portMatches port) with
                | none => .ok (pushPort s port, [])
                | some other_port =>
                  if port.direction ≠ other_port.direction then
                    match (if port.direction = .IN then
                             create_link factory_ok port other_port
                           else
                             create_link factory_ok other_port port) with
                    | .error msg => .error msg
                    | .ok out =>
                      .ok (pushPort { s with
                              temp_links := s.temp_links ++ [s.next_handle]
                              next_handle := s.next_handle + 1 } port,
                           [out])
                  else
                    .ok (pushPort s port, [])
    | .link l =>
      if s.created_links id = true then
        .ok (s, [])
      else
        .ok (s,
          (match s.relevant_nodes l.node_in with
           | some node_in =>
             match cfg.delete_in node_in.name with
             | some name => if node_in.name = name then [Output.destroy id] else []
             | none => []
           | none => []) ++
          (match s.relevant_nodes l.node_out with
           | some node_out =>
             match cfg.delete_out node_out.name with
             | some name => if node_out.name = name then [Output.destroy id] else []
             | none => []
           | none => []))
  | .delete id =>
    match s.relevant_nodes id with
    | some data =>
      .ok ({ s with
              relevant_nodes := del s.relevant_nodes id
              node_by_name := del s.node_by_name data.name
              created_links := setRemove s.created_links id }, [])
    | none =>
      .ok ({ s with created_links := setRemove s.created_links id }, [])
  | .confirm localId serverId =>
    .ok ({ s with
            created_links := setInsert s.created_links serverId
            temp_links := s.temp_links.filter (fun h => h != localId) }, [])

/-- The main loop: events delivered one at a time, handlers run to
completion; a panic (`.error`) aborts the whole loop. -/
def run (cfg : ConfigCache) (factory_ok : Bool) : State → List Event → Except String (State × List Output)
  | s, [] => .ok (s, [])
  | s, e :: rest =>
    match on_event cfg factory_ok s e with
    | .error msg => .error msg
    | .ok (s1, outs1) =>
      match run cfg factory_ok s1 rest with
      | .error msg => .error msg
      | .ok (s2, outs2) => .ok (s2, outs1 ++ outs2)

/-- Final state of a run (the start state when the run panics). -/
def stateAfter (cfg : ConfigCache) (factory_ok : Bool) (s : State) (evs : List Event) : State :=
  match run cfg factory_ok s evs with
  | .ok (s', _) => s'
  | .error _ => s

/-- Outbound calls issued over a whole run (empty when the run panics). -/
def outputsAfter (cfg : ConfigCache) (factory_ok : Bool) (s : State) (evs : List Event) : List Output :=
  match run cfg factory_ok s evs with
  | .ok (_, outs) => outs
  | .error _ => []

/-- Outbound calls issued while handling one event. -/
def eventOutputs (cfg : ConfigCache) (factory_ok : Bool) (s : State) (e : Event) : List Output :=
  match on_event cfg factory_ok s e with
  | .ok (_, outs) => outs
  | .error _ => []

/-- The `ConfigCache` that `parse_cmdline` builds for a single
`--connect output,input` argument: both names key the same pair, no delete
flags, `all` is the two names. -/
def single_connect_config (output input : String) : ConfigCache :=
  { connect := fun n => if n = output ∨ n = input then some (output, input) else none
    delete_in := fun _ => none
    delete_out := fun _ => none
    all := fun n => decide (n = output ∨ n = input) }

/-- The `ConfigCache` that `parse_cmdline` builds for
`--connect A,B --delete-in B`. -/
def connect_delete_config : ConfigCache :=
  { connect := fun n => if n = "A" ∨ n = "B" then some ("A", "B") else none
    delete_in := fun n => if n = "B" then some "B" else none
    delete_out := fun _ => none
    all := fun n => decide (n = "A" ∨ n = "B") }

/-- The index-consistency invariant claimed for the `EndpointStore`:
`nameIndex[name] == id` iff `idIndex[id].name == name`. -/
def Inv (s : State) : Prop :=
  ∀ name id, s.node_by_name name = some id ↔
    ∃ nd, s.relevant_nodes id = some nd ∧ nd.name = name

/-- Freshness side condition on one event: a node-creation event carries an
id not currently tracked and a name not currently indexed. -/
def fresh_for (s : State) : Event → Prop
  | .create id (.node name) => s.relevant_nodes id = none ∧ s.node_by_name name = none
  | _ => True

/-- From `fn unwrap_arr` (specialised to lists): all-or-nothing unwrap of a
collection of options. -/
def unwrap_arr {α : Type} (arr : List (Option α)) : Option (List α) :=
  if arr.any (fun x => x.isNone) then none
  else some (arr.filterMap id)

/-- From `fn get_props`: look up every key in the property dict, succeed
only if all are present. -/
def get_props (dict : String → Option String) (keys : List String) : Option (List String) :=
  unwrap_arr (keys.map dict)

/-- Models `u32::parse_value` from the external spa library: decimal parse
bounded to 32 bits. -/
def parse_u32 (s : String) : Option Nat :=
  if s.data ≠ [] ∧ s.data.all (fun c => c.isDigit) then
    let n := s.data.foldl (fun acc c => acc * 10 + (c.toNat - 48)) 0
    if n < 4294967296 then some n else none
  else none

/-- The `ObjectType::Port` arm of the registry `global` callback in
`listener_thread`: require `node.id`, `audio.channel`, `port.direction`,
parse the node id, and read the direction as `IN` exactly on the string
`"in"`, `OUT` on anything else. -/
def port_from_props (id : Nat) (props : String → Option String) : Option Port :=
  match get_props props ["node.id", "audio.channel", "port.direction"] with
  | some [node_id, channel, dir_str] =>
    match parse_u32 node_id with
    | some node =>
      some { id := id, node := node, channel := channel
             direction := if dir_str = "in" then .IN else .OUT }
    | none => none
  | _ => none

/-! ## General lemmas -/

/-- The first element of a list satisfying a predicate, phrased through an
explicit split of the list, is what `find?` returns. -/
theorem find?_first {α : Type} (f : α → Bool) (pre post : List α) (q : α)
    (hpre : ∀ r ∈ pre, f r = false) (hq : f q = true) :
    (pre ++ q :: post).find? f = some q := by
  induction pre with
  | nil => simpa using List.find?_cons_of_pos post hq
  | cons a as ih =>
    have ha : f a = false := hpre a (by simp)
    rw [List.cons_append, List.find?_cons_of_neg _ (by simp [ha])]
    exact ih (fun r hr => hpre r (by simp [hr]))

/-- Injectivity of a successful dispatcher result. -/
theorem ok_pair_inj {s1 s2 : State} {o1 o2 : List Output}
    (h : (Except.ok (s1, o1) : Except String (State × List Output)) = .ok (s2, o2)) :
    s1 = s2 ∧ o1 = o2 := by
  injection h with h'
  exact ⟨congrArg Prod.fst h', congrArg Prod.snd h'⟩

/-- Effect of the deferred port push on the parent's entry. -/
theorem pushPort_relevant_nodes (s : State) (p : Port) (parent : NodeData)
    (h : s.relevant_nodes p.node = some parent) :
    (pushPort s p).relevant_nodes p.node =
      some { parent with ports := parent.ports ++ [p] } := by
  simp [pushPort, h, upd]

/-! ## Claims -/

/-- Claim C2: a ConnectionCreated (link) event whose object id is already
in `created_links` produces no `request_destroy` (indeed no state change
and no outbound call at all), regardless of any delete flags on either
endpoint. -/
theorem created_link_never_destroyed (cfg : ConfigCache) (ok : Bool) (s : State)
    (id : Nat) (l : Link) (h : s.created_links id = true) :
    on_event cfg ok s (.create id (.link l)) = .ok (s, []) := by
  simp [on_event, h]

/-- Witness for C2: a state whose `created_links` holds id 30 ignores the
link event for id 30 even under a `--delete-in` flag matching its input
endpoint. -/
theorem created_link_never_destroyed_witness :
    on_event connect_delete_config true
      { init with created_links := setInsert init.created_links 30 }
      (.create 30 (.link ⟨20, 10, 2, 1⟩)) =
    .ok ({ init with created_links := setInsert init.created_links 30 }, []) :=
  created_link_never_destroyed connect_delete_config true
    { init with created_links := setInsert init.created_links 30 }
    30 ⟨20, 10, 2, 1⟩ rfl

/-- Claim C7: a port whose direction contradicts the role its parent
endpoint plays under the connect rule produces no connection request (the
handler returns with the state unchanged and no outbound call). -/
theorem direction_guard_no_connect (cfg : ConfigCache) (ok : Bool) (s : State)
    (idp : Nat) (p : Port) (parent : NodeData) (oname iname : String)
    (hparent : s.relevant_nodes p.node = some parent)
    (hrule : cfg.connect parent.name = some (oname, iname))
    (hguard : (p.direction = .IN ∧ parent.name ≠ iname) ∨
              (p.direction = .OUT ∧ parent.name ≠ oname)) :
    on_event cfg ok s (.create idp (.port p)) = .ok (s, []) := by
  rcases hguard with ⟨hd, hn⟩ | ⟨hd, hn⟩
  · simp [on_event, hparent, hrule, hd, hn]
  · simp [on_event, hparent, hrule, hd, hn]

/-- Witness for C7: with rule `--connect A,B`, an IN port on the
output-side endpoint A is ignored even though a same-label OUT port could
exist elsewhere. -/
theorem direction_guard_no_connect_witness :
    on_event (single_connect_config "A" "B") true
      (stateAfter (single_connect_config "A" "B") true init [.create 1 (.node "A")])
      (.create 11 (.port ⟨11, 1, "FL", .IN⟩)) =
    .ok (stateAfter (single_connect_config "A" "B") true init [.create 1 (.node "A")], []) :=
  direction_guard_no_connect (single_connect_config "A" "B") true
    (stateAfter (single_connect_config "A" "B") true init [.create 1 (.node "A")])
    11 ⟨11, 1, "FL", .IN⟩ ⟨"A", 1, []⟩ "A" "B" rfl rfl
    (Or.inl ⟨rfl, by decide⟩)

/-- Counterexample for C3: with `--connect A,B --delete-in B`, the link
notification for the engine's own requested connection (id 30) arriving
before the confirm callback is treated as foreign and destroyed — the
trace issues `request_connection` and then `request_destroy 30` for that
same in-flight link. -/
theorem inflight_link_destroyed_cex :
    outputsAfter connect_delete_config true init
      [.create 1 (.node "A"), .create 2 (.node "B"),
       .create 10 (.port ⟨10, 1, "FL", .OUT⟩), .create 20 (.port ⟨20, 2, "FL", .IN⟩),
       .create 30 (.link ⟨20, 10, 2, 1⟩)] =
    [.connect 10 20 1 2, .destroy 30] := by
  decide

/-- Claim C3 (amended): once the confirm callback for a self-requested
link has run (recording its id in `created_links`), a link notification
for that id is never treated as foreign: no outbound call is issued. -/
theorem confirmed_self_link_not_destroyed (cfg : ConfigCache) (ok : Bool)
    (s s' : State) (lid sid : Nat) (l : Link)
    (h : on_event cfg ok s (.confirm lid sid) = .ok (s', [])) :
    on_event cfg ok s' (.create sid (.link l)) = .ok (s', []) := by
  have hs' : s' = { s with created_links := setInsert s.created_links sid,
                           temp_links := s.temp_links.filter (fun h => h != lid) } := by
    simp [on_event] at h
    exact h.symm
  subst hs'
  simp [on_event, setInsert]

/-- Witness for C3's amended theorem at a concrete confirm-then-notify
pair of events for id 30. -/
theorem confirmed_self_link_not_destroyed_witness :
    on_event connect_delete_config true
      { init with created_links := setInsert init.created_links 30,
                  temp_links := init.temp_links.filter (fun h => h != 0) }
      (.create 30 (.link ⟨20, 10, 2, 1⟩)) =
    .ok ({ init with created_links := setInsert init.created_links 30,
                     temp_links := init.temp_links.filter (fun h => h != 0) }, []) :=
  confirmed_self_link_not_destroyed connect_delete_config true init _ 0 30
    ⟨20, 10, 2, 1⟩ rfl

/-- Claim C10: when the three required port properties are present and the
node id parses, the listener always builds a port (malformed direction
strings are not dropped), and its direction is `IN` exactly when the
`port.direction` property is the string `"in"`. -/
theorem port_direction_from_string (id : Nat) (props : String → Option String)
    (node_id channel dir_str : String) (node : Nat)
    (h1 : props "node.id" = some node_id)
    (h2 : props "audio.channel" = some channel)
    (h3 : props "port.direction" = some dir_str)
    (h4 : parse_u32 node_id = some node) :
    port_from_props id props =
      some { id := id, node := node, channel := channel
             direction := if dir_str = "in" then .IN else .OUT } ∧
    ((if dir_str = "in" then Direction.IN else .OUT) = .IN ↔ dir_str = "in") := by
  constructor
  · simp [port_from_props, get_props, unwrap_arr, h1, h2, h3, h4]
  · by_cases hd : dir_str = "in" <;> simp [hd]

/-- Witness for C10: an unexpected direction string `"weird"` still yields
a stored port, with direction `OUT`. -/
theorem port_direction_from_string_witness :
    port_from_props 7
      (fun k => if k = "node.id" then some "3"
                else if k = "audio.channel" then some "FL"
                else if k = "port.direction" then some "weird" else none) =
      some { id := 7, node := 3, channel := "FL"
             direction := if "weird" = "in" then .IN else .OUT } ∧
    ((if "weird" = "in" then Direction.IN else .OUT) = .IN ↔ "weird" = "in") :=
  port_direction_from_string 7 _ "3" "FL" "weird" 3 rfl rfl rfl (by decide)

/-- Counterexample for C1: replaying the already-processed
`PortCreated(20, 2, "FL", IN)` notification produces a second
`request_connection` for the same channel pair — the engine does not
deduplicate replayed discovery notifications. -/
theorem replay_double_connect_cex :
    outputsAfter (single_connect_config "A" "B") true init
      [.create 1 (.node "A"), .create 2 (.node "B"),
       .create 10 (.port ⟨10, 1, "FL", .OUT⟩), .create 20 (.port ⟨20, 2, "FL", .IN⟩),
       .create 20 (.port ⟨20, 2, "FL", .IN⟩)] =
    [.connect 10 20 1 2, .connect 10 20 1 2] := by
  decide

/-- Counterexample for C5: after `EndpointCreated(1, "A")` followed by
`EndpointCreated(2, "A")` (a second tracked endpoint reusing the name),
the biconditional index invariant fails: `relevant_nodes` still maps id 1
to name `"A"` while `node_by_name "A"` is 2. -/
theorem name_reuse_breaks_index_cex :
    ¬ Inv (stateAfter (single_connect_config "A" "B") true init
        [.create 1 (.node "A"), .create 2 (.node "A")]) := by
  intro h
  have h1 := (h "A" 1).2 ⟨⟨"A", 1, []⟩, by decide, rfl⟩
  exact absurd h1 (by decide)

/-- Counterexample for C9: when the link factory rejects the request
synchronously, `create_link`'s `.expect` panics and the run dies — the
event loop does not report-and-continue. -/
theorem connect_failure_panics_cex :
    run (single_connect_config "A" "B") false init
      [.create 1 (.node "A"), .create 2 (.node "B"),
       .create 10 (.port ⟨10, 1, "FL", .OUT⟩), .create 20 (.port ⟨20, 2, "FL", .IN⟩)] =
    .error "Failed to create object" := by
  rfl

/-- Counterexample for C4: an IN port (id 11) on tracked endpoint A, which
plays the output role under `--connect A,B`, is dropped by the direction
guard's early return without being appended — the parent's port list stays
empty. -/
theorem wrong_direction_port_not_appended_cex :
    (stateAfter (single_connect_config "A" "B") true init
        [.create 1 (.node "A"), .create 11 (.port ⟨11, 1, "FL", .IN⟩)]).relevant_nodes 1 =
    some { name := "A", id := 1, ports := [] } := by
  decide

/-- Claim C4 (amended): a port on a tracked endpoint is appended to the
parent's port list whenever the direction guard does not fire (no connect
rule for the parent, or the port's direction matches the parent's declared
role); a port rejected by the guard is dropped without being appended. -/
theorem port_appended_when_guard_passes (cfg : ConfigCache) (ok : Bool) (s : State)
    (idp : Nat) (p : Port) (parent : NodeData) (s' : State) (outs : List Output)
    (hparent : s.relevant_nodes p.node = some parent)
    (hguard : ∀ oname iname, cfg.connect parent.name = some (oname, iname) →
      ¬(p.direction = .IN ∧ parent.name ≠ iname) ∧
      ¬(p.direction = .OUT ∧ parent.name ≠ oname))
    (hstep : on_event cfg ok s (.create idp (.port p)) = .ok (s', outs)) :
    s'.relevant_nodes p.node = some { parent with ports := parent.ports ++ [p] } := by
  simp only [on_event, hparent] at hstep
  cases hc : cfg.connect parent.name with
  | none =>
    simp only [hc] at hstep
    obtain ⟨hs', -⟩ := ok_pair_inj hstep
    rw [← hs']
    exact pushPort_relevant_nodes s p parent hparent
  | some pair =>
    obtain ⟨oname, iname⟩ := pair
    simp only [hc] at hstep
    have hg := hguard oname iname hc
    rw [if_neg hg.1, if_neg hg.2] at hstep
    cases hnb : s.node_by_name (if p.direction = .IN then oname else iname) with
    | none =>
      simp only [hnb] at hstep
      obtain ⟨hs', -⟩ := ok_pair_inj hstep
      rw [← hs']
      exact pushPort_relevant_nodes s p parent hparent
    | some other_node =>
      simp only [hnb] at hstep
      cases hod : s.relevant_nodes other_node with
      | none =>
        simp only [hod] at hstep
        exact absurd hstep (by simp)
      | some odata =>
        simp only [hod] at hstep
        cases hf : odata.ports.find? (portMatches p) with
        | none =>
          simp only [hf] at hstep
          obtain ⟨hs', -⟩ := ok_pair_inj hstep
          rw [← hs']
          exact pushPort_relevant_nodes s p parent hparent
        | some q =>
          simp only [hf] at hstep
          by_cases hdq : p.direction ≠ q.direction
          · rw [if_pos hdq] at hstep
            cases hcl : (if p.direction = .IN then create_link ok p q
                         else create_link ok q p) with
            | error msg =>
              simp only [hcl] at hstep
              exact absurd hstep (by simp)
            | ok out =>
              simp only [hcl] at hstep
              obtain ⟨hs', -⟩ := ok_pair_inj hstep
              rw [← hs']
              exact pushPort_relevant_nodes _ p parent hparent
          · rw [if_neg hdq] at hstep
            obtain ⟨hs', -⟩ := ok_pair_inj hstep
            rw [← hs']
            exact pushPort_relevant_nodes s p parent hparent

/-- Witness for C4's amended theorem: with `--connect A,B`, an OUT port on
endpoint A (the declared output side) is appended to A's port list. -/
theorem port_appended_when_guard_passes_witness :
    (stateAfter (single_connect_config "A" "B") true init
        [.create 1 (.node "A"), .create 10 (.port ⟨10, 1, "FL", .OUT⟩)]).relevant_nodes 1 =
    some { name := "A", id := 1, ports := [⟨10, 1, "FL", .OUT⟩] } :=
  port_appended_when_guard_passes (single_connect_config "A" "B") true
    (stateAfter (single_connect_config "A" "B") true init [.create 1 (.node "A")])
    10 ⟨10, 1, "FL", .OUT⟩ ⟨"A", 1, []⟩
    (stateAfter (single_connect_config "A" "B") true init
      [.create 1 (.node "A"), .create 10 (.port ⟨10, 1, "FL", .OUT⟩)])
    [] rfl
    (by
      intro o i h
      simp [single_connect_config] at h
      obtain ⟨rfl, rfl⟩ := h
      decide)
    rfl

/-- Claim C8: a PortCreated event whose parent endpoint id is untracked
leaves the whole state unchanged and issues no outbound call, and indeed a
whole run behaves as if the event had never been delivered (so the dropped
port can never retroactively match); and after a Delete event for a
tracked endpoint, the name index no longer resolves that endpoint's name
and the id is untracked (so a subsequent PortCreated naming it is dropped
as orphaned). -/
theorem orphan_port_dropped_and_cleanup (cfg : ConfigCache) (ok : Bool) (s : State) :
    (∀ idp p, s.relevant_nodes p.node = none →
      on_event cfg ok s (.create idp (.port p)) = .ok (s, []) ∧
      ∀ rest, run cfg ok s (.create idp (.port p) :: rest) = run cfg ok s rest) ∧
    (∀ rid data s' outs, s.relevant_nodes rid = some data →
      on_event cfg ok s (.delete rid) = .ok (s', outs) →
      outs = [] ∧ s'.node_by_name data.name = none ∧ s'.relevant_nodes rid = none) := by
  constructor
  · intro idp p huntracked
    have hdrop : on_event cfg ok s (.create idp (.port p)) = .ok (s, []) := by
      simp [on_event, huntracked]
    refine ⟨hdrop, fun rest => ?_⟩
    simp only [run, hdrop]
    cases hrun : run cfg ok s rest with
    | error msg => rfl
    | ok pair => simp
  · intro rid data s' outs htracked hstep
    simp only [on_event, htracked] at hstep
    obtain ⟨hs', houts⟩ := ok_pair_inj hstep
    refine ⟨houts.symm, ?_, ?_⟩
    · rw [← hs']
      simp [del]
    · rw [← hs']
      simp [del]

/-- Witness for C8: after tracking A and B and removing endpoint 2, the
name `"B"` no longer resolves; a port event naming node 2 is then dropped
with no state change, and a run continues as if it had not occurred. -/
theorem orphan_port_dropped_and_cleanup_witness :
    (on_event (single_connect_config "A" "B") true
        (stateAfter (single_connect_config "A" "B") true init
          [.create 1 (.node "A"), .create 2 (.node "B"), .delete 2])
        (.create 21 (.port ⟨21, 2, "FR", .IN⟩)) =
      .ok (stateAfter (single_connect_config "A" "B") true init
          [.create 1 (.node "A"), .create 2 (.node "B"), .delete 2], [])) ∧
    ((stateAfter (single_connect_config "A" "B") true init
        [.create 1 (.node "A"), .create 2 (.node "B"), .delete 2]).node_by_name "B" = none ∧
     (stateAfter (single_connect_config "A" "B") true init
        [.create 1 (.node "A"), .create 2 (.node "B"), .delete 2]).relevant_nodes 2 = none) := by
  constructor
  · exact ((orphan_port_dropped_and_cleanup (single_connect_config "A" "B") true
      (stateAfter (single_connect_config "A" "B") true init
        [.create 1 (.node "A"), .create 2 (.node "B"), .delete 2])).1
      21 ⟨21, 2, "FR", .IN⟩ (by decide)).1
  · have h := (orphan_port_dropped_and_cleanup (single_connect_config "A" "B") true
      (stateAfter (single_connect_config "A" "B") true init
        [.create 1 (.node "A"), .create 2 (.node "B")])).2
      2 ⟨"B", 2, []⟩
      (stateAfter (single_connect_config "A" "B") true init
        [.create 1 (.node "A"), .create 2 (.node "B"), .delete 2])
      [] (by decide) rfl
    exact ⟨h.2.1, h.2.2⟩

/-- Claim C6: when a newly discovered port matches, the partner port used
is the first port of the partner's list, in insertion order, with the same
channel label and the opposite direction; and the issued connection is
always oriented with the OUT port as `link.output.port` and the IN port as
`link.input.port`, whichever side the new port is on. -/
theorem first_match_out_to_in (cfg : ConfigCache) (s : State) (idp : Nat)
    (p : Port) (parent : NodeData) (oname iname : String) (other_node : Nat)
    (odata : NodeData) (pre post : List Port) (q : Port)
    (hparent : s.relevant_nodes p.node = some parent)
    (hrule : cfg.connect parent.name = some (oname, iname))
    (hg1 : ¬(p.direction = .IN ∧ parent.name ≠ iname))
    (hg2 : ¬(p.direction = .OUT ∧ parent.name ≠ oname))
    (hother : s.node_by_name (if p.direction = .IN then oname else iname) = some other_node)
    (hodata : s.relevant_nodes other_node = some odata)
    (hports : odata.ports = pre ++ q :: post)
    (hpre : ∀ r ∈ pre, ¬(r.channel = p.channel ∧ r.direction ≠ p.direction))
    (hq : q.channel = p.channel ∧ q.direction ≠ p.direction) :
    (if p.direction = .IN then q else p).direction = .OUT ∧
    (if p.direction = .IN then p else q).direction = .IN ∧
    eventOutputs cfg true s (.create idp (.port p)) =
      [Output.connect (if p.direction = .IN then q else p).id
                      (if p.direction = .IN then p else q).id
                      (if p.direction = .IN then q else p).node
                      (if p.direction = .IN then p else q).node] := by
  obtain ⟨hch, hdq⟩ := hq
  have hfind : odata.ports.find? (portMatches p) = some q := by
    rw [hports]
    refine find?_first _ _ _ _ (fun r hr => ?_) ?_
    · have hnr := hpre r hr
      by_cases h1 : r.channel = p.channel
      · by_cases h2 : r.direction ≠ p.direction
        · exact absurd ⟨h1, h2⟩ hnr
        · simp [portMatches, h2]
      · simp [portMatches, h1]
    · simp [portMatches, hch, hdq]
  have hdq' : p.direction ≠ q.direction := Ne.symm hdq
  refine ⟨?_, ?_, ?_⟩
  · cases hp : p.direction <;> cases hqd : q.direction <;> simp_all
  · cases hp : p.direction <;> cases hqd : q.direction <;> simp_all
  · simp only [eventOutputs, on_event, hparent, hrule]
    rw [if_neg hg1, if_neg hg2]
    simp only [hother, hodata, hfind]
    rw [if_pos hdq']
    by_cases hpd : p.direction = .IN
    · simp [hpd, create_link]
    · simp [hpd, create_link]

/-- Witness for C6: endpoint A holds ports FR(9), FL(10), FL(12) in that
insertion order; the new IN port FL(20) on B picks the first FL OUT port
(10), not the later duplicate (12), and the request is oriented 10 → 20. -/
theorem first_match_out_to_in_witness :
    (⟨10, 1, "FL", .OUT⟩ : Port).direction = .OUT ∧
    (⟨20, 2, "FL", .IN⟩ : Port).direction = .IN ∧
    eventOutputs (single_connect_config "A" "B") true
      (stateAfter (single_connect_config "A" "B") true init
        [.create 1 (.node "A"), .create 2 (.node "B"),
         .create 9 (.port ⟨9, 1, "FR", .OUT⟩), .create 10 (.port ⟨10, 1, "FL", .OUT⟩),
         .create 12 (.port ⟨12, 1, "FL", .OUT⟩)])
      (.create 20 (.port ⟨20, 2, "FL", .IN⟩)) =
    [Output.connect 10 20 1 2] :=
  first_match_out_to_in (single_connect_config "A" "B")
    (stateAfter (single_connect_config "A" "B") true init
      [.create 1 (.node "A"), .create 2 (.node "B"),
       .create 9 (.port ⟨9, 1, "FR", .OUT⟩), .create 10 (.port ⟨10, 1, "FL", .OUT⟩),
       .create 12 (.port ⟨12, 1, "FL", .OUT⟩)])
    20 ⟨20, 2, "FL", .IN⟩ ⟨"B", 2, []⟩ "A" "B" 1
    ⟨"A", 1, [⟨9, 1, "FR", .OUT⟩, ⟨10, 1, "FL", .OUT⟩, ⟨12, 1, "FL", .OUT⟩]⟩
    [⟨9, 1, "FR", .OUT⟩] [⟨12, 1, "FL", .OUT⟩] ⟨10, 1, "FL", .OUT⟩
    (by decide) (by decide) (by decide) (by decide) (by decide) (by decide)
    rfl (by decide) (by decide)

/-- Claim C9 (amended): a synchronous rejection of the connection request
is fatal: `create_link`'s `.expect` panics while handling the matching
port event, and the run processes no further notifications. -/
theorem connect_failure_fatal (cfg : ConfigCache) (s : State) (idp : Nat)
    (p : Port) (parent : NodeData) (oname iname : String) (other_node : Nat)
    (odata : NodeData) (q : Port)
    (hparent : s.relevant_nodes p.node = some parent)
    (hrule : cfg.connect parent.name = some (oname, iname))
    (hg1 : ¬(p.direction = .IN ∧ parent.name ≠ iname))
    (hg2 : ¬(p.direction = .OUT ∧ parent.name ≠ oname))
    (hother : s.node_by_name (if p.direction = .IN then oname else iname) = some other_node)
    (hodata : s.relevant_nodes other_node = some odata)
    (hfind : odata.ports.find? (portMatches p) = some q) :
    on_event cfg false s (.create idp (.port p)) = .error "Failed to create object" ∧
    ∀ rest, run cfg false s (.create idp (.port p) :: rest) =
      .error "Failed to create object" := by
  have hdq : p.direction ≠ q.direction := by
    have hq := List.find?_some hfind
    simp only [portMatches, Bool.and_eq_true, decide_eq_true_eq] at hq
    exact Ne.symm hq.2
  have hev : on_event cfg false s (.create idp (.port p)) =
      .error "Failed to create object" := by
    simp only [on_event, hparent, hrule]
    rw [if_neg hg1, if_neg hg2]
    simp only [hother, hodata, hfind]
    rw [if_pos hdq]
    by_cases hpd : p.direction = .IN <;> simp [hpd, create_link]
  exact ⟨hev, fun rest => by simp only [run, hev]⟩

/-- Witness for C9's amended theorem: with A's FL OUT port tracked and the
factory unavailable, the IN port event on B panics the engine and the run
dies immediately. -/
theorem connect_failure_fatal_witness :
    on_event (single_connect_config "A" "B") false
      (stateAfter (single_connect_config "A" "B") true init
        [.create 1 (.node "A"), .create 2 (.node "B"),
         .create 10 (.port ⟨10, 1, "FL", .OUT⟩)])
      (.create 20 (.port ⟨20, 2, "FL", .IN⟩)) = .error "Failed to create object" ∧
    run (single_connect_config "A" "B") false
      (stateAfter (single_connect_config "A" "B") true init
        [.create 1 (.node "A"), .create 2 (.node "B"),
         .create 10 (.port ⟨10, 1, "FL", .OUT⟩)])
      [.create 20 (.port ⟨20, 2, "FL", .IN⟩), .create 30 (.link ⟨20, 10, 2, 1⟩)] =
      .error "Failed to create object" :=
  ⟨(connect_failure_fatal (single_connect_config "A" "B")
      (stateAfter (single_connect_config "A" "B") true init
        [.create 1 (.node "A"), .create 2 (.node "B"),
         .create 10 (.port ⟨10, 1, "FL", .OUT⟩)])
      20 ⟨20, 2, "FL", .IN⟩ ⟨"B", 2, []⟩ "A" "B" 1
      ⟨"A", 1, [⟨10, 1, "FL", .OUT⟩]⟩ ⟨10, 1, "FL", .OUT⟩
      (by decide) (by decide) (by decide) (by decide) (by decide) (by decide)
      (by decide)).1,
   (connect_failure_fatal (single_connect_config "A" "B")
      (stateAfter (single_connect_config "A" "B") true init
        [.create 1 (.node "A"), .create 2 (.node "B"),
         .create 10 (.port ⟨10, 1, "FL", .OUT⟩)])
      20 ⟨20, 2, "FL", .IN⟩ ⟨"B", 2, []⟩ "A" "B" 1
      ⟨"A", 1, [⟨10, 1, "FL", .OUT⟩]⟩ ⟨10, 1, "FL", .OUT⟩
      (by decide) (by decide) (by decide) (by decide) (by decide) (by decide)
      (by decide)).2 [.create 30 (.link ⟨20, 10, 2, 1⟩)]⟩

/-- Claim C1 (amended): for the discovery sequence matching one connect
rule on a single channel delivered without replays — two tracked
endpoints, one OUT port on the output side, one IN port on the input
side — exactly one `request_connection` is issued. -/
theorem connect_once_without_replay (a b : String) (i j pid qid : Nat) (c : String)
    (hab : a ≠ b) (hij : i ≠ j) :
    outputsAfter (single_connect_config a b) true init
      [.create i (.node a), .create j (.node b),
       .create pid (.port ⟨pid, i, c, .OUT⟩), .create qid (.port ⟨qid, j, c, .IN⟩)] =
    [.connect pid qid i j] := by
  have hba : b ≠ a := Ne.symm hab
  have hji : j ≠ i := Ne.symm hij
  simp [outputsAfter, run, on_event, single_connect_config, upd, pushPort, init,
    portMatches, create_link, List.find?, hab, hba, hij, hji]

/-- Witness for C1's amended theorem at the §8 scenario of the spec. -/
theorem connect_once_without_replay_witness :
    outputsAfter (single_connect_config "A" "B") true init
      [.create 1 (.node "A"), .create 2 (.node "B"),
       .create 10 (.port ⟨10, 1, "FL", .OUT⟩), .create 20 (.port ⟨20, 2, "FL", .IN⟩)] =
    [.connect 10 20 1 2] :=
  connect_once_without_replay "A" "B" 1 2 10 20 "FL" (by decide) (by decide)

/-- Updating one entry of the id index with a node of the same name does
not change which ids carry which names. -/
theorem names_preserved_upd (m : Nat → Option NodeData) (k : Nat) (nd : NodeData)
    (hm : m k = some nd) (nd' : NodeData) (hname : nd'.name = nd.name) :
    ∀ n i, (∃ d, upd m k nd' i = some d ∧ d.name = n) ↔
      (∃ d, m i = some d ∧ d.name = n) := by
  intro n i
  unfold upd
  by_cases hi : i = k
  · subst hi
    rw [hm]
    simp [hname]
  · simp [hi]

/-- The deferred port push preserves the index-consistency invariant: it
only grows a port list, never touches a name or either index key set. -/
theorem Inv_pushPort (s : State) (p : Port) (hInv : Inv s) : Inv (pushPort s p) := by
  unfold pushPort
  cases h : s.relevant_nodes p.node with
  | none => exact hInv
  | some nd =>
    intro n i
    constructor
    · intro hnb
      exact (names_preserved_upd s.relevant_nodes p.node nd h
        { nd with ports := nd.ports ++ [p] } rfl n i).2 ((hInv n i).1 hnb)
    · intro hex
      exact (hInv n i).2 ((names_preserved_upd s.relevant_nodes p.node nd h
        { nd with ports := nd.ports ++ [p] } rfl n i).1 hex)

/-- Claim C5 (amended): the biconditional invariant
`node_by_name[name] = id` iff `relevant_nodes[id].name = name` is
preserved by every event the dispatcher processes, provided each
EndpointCreated event carries an id not currently tracked and a name not
currently indexed; an EndpointCreated reusing a live name or id can break
it. -/
theorem index_invariant_preserved (cfg : ConfigCache) (ok : Bool) (s : State)
    (e : Event) (s' : State) (outs : List Output)
    (hInv : Inv s) (hfresh : fresh_for s e)
    (hstep : on_event cfg ok s e = .ok (s', outs)) : Inv s' := by
  cases e with
  | create id thing =>
    cases thing with
    | node name =>
      obtain ⟨hid, hname⟩ := hfresh
      by_cases hall : cfg.all name = true
      · simp only [on_event, if_pos hall] at hstep
        obtain ⟨hs', -⟩ := ok_pair_inj hstep
        rw [← hs']
        intro n i
        show (upd s.node_by_name name id) n = some i ↔
          ∃ nd, (upd s.relevant_nodes id ⟨name, id, []⟩) i = some nd ∧ nd.name = n
        unfold upd
        by_cases hn : n = name <;> by_cases hi : i = id
        · simp [hn, hi]
        · rw [if_pos hn, if_neg hi]
          constructor
          · intro h
            injection h with h
            exact absurd h.symm hi
          · rintro ⟨nd, hnd, hname'⟩
            have hsome := (hInv name i).2 ⟨nd, hnd, hname'.trans hn⟩
            rw [hname] at hsome
            cases hsome
        · rw [if_neg hn, if_pos hi]
          constructor
          · intro h
            rw [hi] at h
            obtain ⟨nd, hnd, -⟩ := (hInv n id).1 h
            rw [hid] at hnd
            cases hnd
          · rintro ⟨nd, hnd, hname'⟩
            injection hnd with h
            rw [← h] at hname'
            exact absurd hname'.symm hn
        · rw [if_neg hn, if_neg hi]
          exact hInv n i
      · simp only [on_event, if_neg hall] at hstep
        obtain ⟨hs', -⟩ := ok_pair_inj hstep
        rw [← hs']
        exact hInv
    | port p =>
      simp only [on_event] at hstep
      cases hp : s.relevant_nodes p.node with
      | none =>
        simp only [hp] at hstep
        obtain ⟨hs', -⟩ := ok_pair_inj hstep
        rw [← hs']
        exact hInv
      | some parent =>
        simp only [hp] at hstep
        cases hc : cfg.connect parent.name with
        | none =>
          simp only [hc] at hstep
          obtain ⟨hs', -⟩ := ok_pair_inj hstep
          rw [← hs']
          exact Inv_pushPort s p hInv
        | some pair =>
          obtain ⟨oname, iname⟩ := pair
          simp only [hc] at hstep
          by_cases hg1 : p.direction = .IN ∧ parent.name ≠ iname
          · rw [if_pos hg1] at hstep
            obtain ⟨hs', -⟩ := ok_pair_inj hstep
            rw [← hs']
            exact hInv
          · rw [if_neg hg1] at hstep
            by_cases hg2 : p.direction = .OUT ∧ parent.name ≠ oname
            · rw [if_pos hg2] at hstep
              obtain ⟨hs', -⟩ := ok_pair_inj hstep
              rw [← hs']
              exact hInv
            · rw [if_neg hg2] at hstep
              cases hnb : s.node_by_name (if p.direction = .IN then oname else iname) with
              | none =>
                simp only [hnb] at hstep
                obtain ⟨hs', -⟩ := ok_pair_inj hstep
                rw [← hs']
                exact Inv_pushPort s p hInv
              | some other_node =>
                simp only [hnb] at hstep
                cases hod : s.relevant_nodes other_node with
                | none =>
                  simp only [hod] at hstep
                  exact absurd hstep (by simp)
                | some odata =>
                  simp only [hod] at hstep
                  cases hf : odata.ports.find? (portMatches p) with
                  | none =>
                    simp only [hf] at hstep
                    obtain ⟨hs', -⟩ := ok_pair_inj hstep
                    rw [← hs']
                    exact Inv_pushPort s p hInv
                  | some q =>
                    simp only [hf] at hstep
                    by_cases hdq : p.direction ≠ q.direction
                    · rw [if_pos hdq] at hstep
                      cases hcl : (if p.direction = .IN then create_link ok p q
                                   else create_link ok q p) with
                      | error msg =>
                        simp only [hcl] at hstep
                        exact absurd hstep (by simp)
                      | ok out =>
                        simp only [hcl] at hstep
                        obtain ⟨hs', -⟩ := ok_pair_inj hstep
                        rw [← hs']
                        exact Inv_pushPort _ p hInv
                    · rw [if_neg hdq] at hstep
                      obtain ⟨hs', -⟩ := ok_pair_inj hstep
                      rw [← hs']
                      exact Inv_pushPort s p hInv
    | link l =>
      simp only [on_event] at hstep
      by_cases hcreated : s.created_links id = true
      · rw [if_pos hcreated] at hstep
        obtain ⟨hs', -⟩ := ok_pair_inj hstep
        rw [← hs']
        exact hInv
      · rw [if_neg hcreated] at hstep
        obtain ⟨hs', -⟩ := ok_pair_inj hstep
        rw [← hs']
        exact hInv
  | delete id =>
    simp only [on_event] at hstep
    cases hd : s.relevant_nodes id with
    | none =>
      simp only [hd] at hstep
      obtain ⟨hs', -⟩ := ok_pair_inj hstep
      rw [← hs']
      exact hInv
    | some data =>
      simp only [hd] at hstep
      obtain ⟨hs', -⟩ := ok_pair_inj hstep
      rw [← hs']
      intro n i
      show (del s.node_by_name data.name) n = some i ↔
        ∃ nd, (del s.relevant_nodes id) i = some nd ∧ nd.name = n
      unfold del
      by_cases hn : n = data.name <;> by_cases hi : i = id
      · simp [hn, hi]
      · rw [if_pos hn, if_neg hi]
        constructor
        · intro h
          cases h
        · rintro ⟨nd, hnd, hname'⟩
          have h1 := (hInv data.name i).2 ⟨nd, hnd, hname'.trans hn⟩
          have h2 := (hInv data.name id).2 ⟨data, hd, rfl⟩
          rw [h1] at h2
          injection h2 with h2
          exact absurd h2 hi
      · rw [if_neg hn, if_pos hi]
        constructor
        · intro h
          rw [hi] at h
          obtain ⟨nd, hnd, hname'⟩ := (hInv n id).1 h
          rw [hd] at hnd
          injection hnd with hnd
          rw [← hnd] at hname'
          exact absurd hname'.symm hn
        · rintro ⟨nd, hnd, -⟩
          cases hnd
      · rw [if_neg hn, if_neg hi]
        exact hInv n i
  | confirm localId serverId =>
    simp only [on_event] at hstep
    obtain ⟨hs', -⟩ := ok_pair_inj hstep
    rw [← hs']
    exact hInv

/-- Witness for C5's amended theorem: a fresh EndpointCreated on the empty
store preserves the invariant. -/
theorem index_invariant_preserved_witness :
    Inv (stateAfter (single_connect_config "A" "B") true init [.create 1 (.node "A")]) :=
  index_invariant_preserved (single_connect_config "A" "B") true init
    (.create 1 (.node "A"))
    (stateAfter (single_connect_config "A" "B") true init [.create 1 (.node "A")]) []
    (by intro n i; simp [init]) ⟨rfl, rfl⟩ rfl

end PwAutolink
